import Mathlib

/-!
# Verification of the AppWaffle drag-and-drop core

Shallow embedding of the drag-and-drop engine of the AppWaffle repository:
geometry (`Point`, `Rect`, `GridItem`), slot detection
(`src/lib/dnd/SlotDetection.ts`), grid transforms
(`src/lib/dnd/GridTransforms.ts`), the overlap computation
(`src/hooks/useDragGrid.ts`), the folder-creation policy
(`useFolderCreation`), the order-mutating folder actions
(`src/hooks/useGrid.ts`), the drag-engine cancellation paths
(`src/lib/helper-dnd/DragEngine.ts`) and the cross-grid handoff protocol
(`src/lib/helper-dnd/DragCoordinator.ts`).

Pixel coordinates and wall-clock times are modelled as rationals, DOM
side effects as explicit state records, and fallible steps as `Option` /
explicit outcome fields.
-/

namespace AppWaffle

/-- A 2-D point, as in `src/lib/dnd/types.ts`. -/
structure Point where
  x : ℚ
  y : ℚ
  deriving Repr, DecidableEq

/-- A rectangle snapshot (`left`, `top`, `width`, `height`, `center`),
as produced from `getBoundingClientRect` in `GridTransforms.cachePositions`. -/
structure Rect where
  left : ℚ
  top : ℚ
  width : ℚ
  height : ℚ
  center : Point
  deriving Repr, DecidableEq

/-- A cached grid item: stable id, its frozen index at drag start, and its
snapshot rect (`src/lib/dnd/types.ts`, `GridItem`). The DOM element reference
is not needed by any verified property and is omitted. -/
structure GridItem where
  id : String
  index : ℕ
  rect : Rect
  deriving Repr, DecidableEq

/-! ## Overlap computation (`src/hooks/useDragGrid.ts`) -/

/-- Overlap information for folder creation (`OverlapInfo` in
`src/hooks/useDragGrid.ts`). -/
structure OverlapInfo where
  targetId : String
  targetIndex : ℕ
  ratio : ℚ
  deriving Repr, DecidableEq

/-- `calculateOverlap` from `src/hooks/useDragGrid.ts`: ratio of the
intersection area of `activeRect` and `targetRect` to `activeRect`'s own
area, `0` when the rects do not properly intersect, with the division
guarded by `activeArea > 0`. -/
def calculateOverlap (activeRect targetRect : Rect) : ℚ :=
  let overlapLeft := max activeRect.left targetRect.left
  let overlapRight := min (activeRect.left + activeRect.width)
    (targetRect.left + targetRect.width)
  let overlapTop := max activeRect.top targetRect.top
  let overlapBottom := min (activeRect.top + activeRect.height)
    (targetRect.top + targetRect.height)
  if overlapRight ≤ overlapLeft ∨ overlapBottom ≤ overlapTop then 0
  else
    let overlapArea := (overlapRight - overlapLeft) * (overlapBottom - overlapTop)
    let activeArea := activeRect.width * activeRect.height
    if 0 < activeArea then overlapArea / activeArea else 0

/-- `isItemShifted` from `src/hooks/useDragGrid.ts`: an item between the
active and target indices (exclusive of the active) is mid-shift and its
cached rect is not accurate. -/
def isItemShifted (itemIndex activeIndex targetIndex : ℕ) : Bool :=
  if activeIndex = targetIndex then false
  else
    let minIdx := min activeIndex targetIndex
    let maxIdx := max activeIndex targetIndex
    decide (minIdx < itemIndex ∧ itemIndex ≤ maxIdx)

/-- One step of the `findHighestOverlap` fold: keep the candidate with the
strictly larger ratio. -/
def considerOverlap (activeRect : Rect) (activeIndex targetIndex : ℕ)
    (best : Option OverlapInfo) (item : GridItem) : Option OverlapInfo :=
  if item.index = activeIndex then best
  else if isItemShifted item.index activeIndex targetIndex then best
  else
    let ratio := calculateOverlap activeRect item.rect
    if 0 < ratio then
      match best with
      | none => some ⟨item.id, item.index, ratio⟩
      | some b => if b.ratio < ratio then some ⟨item.id, item.index, ratio⟩ else best
    else best

/-- `findHighestOverlap` from `src/hooks/useDragGrid.ts`: the non-active,
non-shifted item with the highest strictly-positive overlap ratio, or
`none`. -/
def findHighestOverlap (activeRect : Rect) (items : List GridItem)
    (activeIndex targetIndex : ℕ) : Option OverlapInfo :=
  items.foldl (considerOverlap activeRect activeIndex targetIndex) none

/-! ## Slot detection (`src/lib/dnd/SlotDetection.ts`) -/

/-- Grid layout metadata calculated from item positions
(`GridLayout` in `src/lib/dnd/SlotDetection.ts`). -/
structure GridLayout where
  columns : ℕ
  totalItems : ℕ
  itemWidth : ℚ
  itemHeight : ℚ
  iconSize : ℚ
  gapX : ℚ
  gapY : ℚ
  offsetX : ℚ
  offsetY : ℚ
  cellWidth : ℚ
  cellHeight : ℚ
  deriving Repr, DecidableEq, Inhabited

instance : Inhabited Point := ⟨⟨0, 0⟩⟩

instance : Inhabited Rect := ⟨⟨0, 0, 0, 0, default⟩⟩

instance : Inhabited GridItem := ⟨⟨"", 0, default⟩⟩

/-- `SlotDetection.calculateLayout`: infer columns, gaps and cell size from
the cached rects.  Only ever called (from `initialize`) on a non-empty item
list; on `[]` the TS code would fault reading `items[0]`, modelled here by
the `Inhabited` default. -/
def calculateLayout (items : List GridItem) : GridLayout :=
  let first := items.headI.rect
  let itemWidth := first.width
  let itemHeight := first.height
  let iconSize : ℚ := 96
  let columns :=
    1 + ((items.drop 1).takeWhile
      (fun it => decide (|it.rect.top - first.top| ≤ itemHeight / 2))).length
  let gapX := if 2 ≤ columns then (items.getD 1 default).rect.left - (first.left + itemWidth) else 0
  let gapY :=
    if columns < items.length then (items.getD columns default).rect.top - (first.top + itemHeight)
    else 0
  { columns := columns
    totalItems := items.length
    itemWidth := itemWidth
    itemHeight := itemHeight
    iconSize := iconSize
    gapX := gapX
    gapY := gapY
    offsetX := first.left
    offsetY := first.top
    cellWidth := itemWidth + gapX
    cellHeight := itemHeight + gapY }

/-- The mutable fields of the `SlotDetection` class.  Sentinel `-1` indices
are kept as integers, exactly as in the TS source. -/
structure SlotState where
  layout : Option GridLayout
  items : List GridItem
  activeIndex : ℤ
  targetIndex : ℤ
  previousCenter : Option Point
  deriving Repr, DecidableEq

/-- The freshly-constructed / `reset()` state of `SlotDetection`. -/
def SlotState.reset : SlotState :=
  { layout := none, items := [], activeIndex := -1, targetIndex := -1, previousCenter := none }

/-- `SlotDetection.initialize(items, activeIndex)`: a no-op on an empty item
list, otherwise records the items, both indices, the active item's starting
center and the inferred layout.  (`items[activeIndex]` is modelled as an
optional lookup; every caller passes an in-range index.) -/
def SlotState.initialize (s : SlotState) (items : List GridItem) (activeIndex : ℕ) : SlotState :=
  if items.length = 0 then s
  else
    { s with
      items := items
      activeIndex := (activeIndex : ℤ)
      targetIndex := (activeIndex : ℤ)
      previousCenter := (items.get? activeIndex).map fun it => it.rect.center
      layout := some (calculateLayout items) }

/-- Loop body of `SlotDetection.detectCrossing` for a single item: skip the
active item; on the dominant axis (`isHorizontalPrimary` when
`|Δx| ≥ |Δy|`) test `crossedRight`/`crossedLeft` (resp. down/up) together
with the strict perpendicular `iconSize` tolerance. -/
def crossCheck (iconSize : ℚ) (activeIndex : ℤ) (previousCenter currentCenter : Point)
    (item : GridItem) : Option ℕ :=
  let deltaX := currentCenter.x - previousCenter.x
  let deltaY := currentCenter.y - previousCenter.y
  if (item.index : ℤ) = activeIndex then none
  else
    let targetCenter := item.rect.center
    if |deltaY| ≤ |deltaX| then
      if ((0 < deltaX ∧ previousCenter.x < targetCenter.x ∧ targetCenter.x ≤ currentCenter.x) ∨
          (deltaX < 0 ∧ targetCenter.x < previousCenter.x ∧ currentCenter.x ≤ targetCenter.x)) ∧
          |currentCenter.y - targetCenter.y| < iconSize
      then some item.index else none
    else
      if ((0 < deltaY ∧ previousCenter.y < targetCenter.y ∧ targetCenter.y ≤ currentCenter.y) ∨
          (deltaY < 0 ∧ targetCenter.y < previousCenter.y ∧ currentCenter.y ≤ targetCenter.y)) ∧
          |currentCenter.x - targetCenter.x| < iconSize
      then some item.index else none

/-- `SlotDetection.detectCrossing`: scan the items in order and return the
index of the first non-active item whose center the dragged center crossed
along the dominant movement axis, within the perpendicular `iconSize`
tolerance. -/
def detectCrossing (layout : GridLayout) (items : List GridItem) (activeIndex : ℤ)
    (previousCenter currentCenter : Point) : Option ℕ :=
  items.findSome? (crossCheck layout.iconSize activeIndex previousCenter currentCenter)

/-- `SlotDetection.update(currentCenter)`: returns the updated state
together with the newly-reported target index (`none` when no crossing
occurred or the crossing hit the current target). -/
def SlotState.update (s : SlotState) (currentCenter : Point) : SlotState × Option ℤ :=
  match s.layout, s.previousCenter with
  | some layout, some prev =>
    let newTargetIndex := detectCrossing layout s.items s.activeIndex prev currentCenter
    let s' := { s with previousCenter := some currentCenter }
    match newTargetIndex with
    | some j =>
      if (j : ℤ) ≠ s.targetIndex then ({ s' with targetIndex := (j : ℤ) }, some (j : ℤ))
      else (s', none)
    | none => (s', none)
  | _, _ => (s, none)

/-- Iterated `update` over a sequence of move centers, discarding the
reported indices. -/
def SlotState.updateSeq (s : SlotState) : List Point → SlotState
  | [] => s
  | c :: cs => ((s.update c).1).updateSeq cs

/-- Crossing as the specification words it: the dominant axis is the one
with the larger of `|Δx|`, `|Δy|`; moving right requires
`prev.x < target.x ≤ cur.x` (symmetrically left/up/down); the perpendicular
distance to the target's center must be strictly within the `iconSize`
tolerance. -/
def specCrossed (iconSize : ℚ) (prev cur target : Point) : Prop :=
  (|cur.y - prev.y| ≤ |cur.x - prev.x| ∧
    ((prev.x < target.x ∧ target.x ≤ cur.x) ∨ (cur.x ≤ target.x ∧ target.x < prev.x)) ∧
    |cur.y - target.y| < iconSize) ∨
  (|cur.x - prev.x| < |cur.y - prev.y| ∧
    ((prev.y < target.y ∧ target.y ≤ cur.y) ∨ (cur.y ≤ target.y ∧ target.y < prev.y)) ∧
    |cur.x - target.x| < iconSize)

/-- A move sequence along which, at every step, no non-active item's center
is crossed (in the sense of `specCrossed`, measured from the state's
recorded previous center). -/
def noSpecCrossSeq : SlotState → List Point → Prop
  | _, [] => True
  | s, c :: cs =>
    (∀ item ∈ s.items, (item.index : ℤ) ≠ s.activeIndex →
      ∀ p ∈ s.previousCenter, ∀ L ∈ s.layout,
        ¬ specCrossed L.iconSize p c item.rect.center) ∧
    noSpecCrossSeq (s.update c).1 cs

/-! ### Slot-detection lemmas -/

theorem crossCheck_sound {iconSize : ℚ} {activeIndex : ℤ} {prev cur : Point}
    {item : GridItem} {j : ℕ}
    (h : crossCheck iconSize activeIndex prev cur item = some j) :
    item.index = j ∧ (item.index : ℤ) ≠ activeIndex ∧
      specCrossed iconSize prev cur item.rect.center := by
  unfold crossCheck at h
  dsimp only at h
  split at h
  · exact absurd h (by simp)
  · rename_i hact
    split at h
    · rename_i hdom
      split at h
      · rename_i hcond
        obtain ⟨hcross, htol⟩ := hcond
        refine ⟨by injection h, hact, Or.inl ⟨hdom, ?_, htol⟩⟩
        rcases hcross with ⟨_, h1, h2⟩ | ⟨_, h1, h2⟩
        · exact Or.inl ⟨h1, h2⟩
        · exact Or.inr ⟨h2, h1⟩
      · exact absurd h (by simp)
    · rename_i hdom
      split at h
      · rename_i hcond
        obtain ⟨hcross, htol⟩ := hcond
        refine ⟨by injection h, hact, Or.inr ⟨lt_of_not_le hdom, ?_, htol⟩⟩
        rcases hcross with ⟨_, h1, h2⟩ | ⟨_, h1, h2⟩
        · exact Or.inl ⟨h1, h2⟩
        · exact Or.inr ⟨h2, h1⟩
      · exact absurd h (by simp)

theorem crossCheck_eq_none {iconSize : ℚ} {activeIndex : ℤ} {prev cur : Point}
    {item : GridItem}
    (h : (item.index : ℤ) = activeIndex ∨
      ¬ specCrossed iconSize prev cur item.rect.center) :
    crossCheck iconSize activeIndex prev cur item = none := by
  cases hc : crossCheck iconSize activeIndex prev cur item with
  | none => rfl
  | some j =>
    obtain ⟨_, hact, hcross⟩ := crossCheck_sound hc
    rcases h with h | h
    · exact absurd h hact
    · exact absurd hcross h

theorem crossCheck_horiz_sound {iconSize : ℚ} {activeIndex : ℤ} {prev cur : Point}
    {item : GridItem} {j : ℕ}
    (hdom : |cur.y - prev.y| ≤ |cur.x - prev.x|)
    (h : crossCheck iconSize activeIndex prev cur item = some j) :
    item.index = j ∧ (item.index : ℤ) ≠ activeIndex ∧
      ((prev.x < item.rect.center.x ∧ item.rect.center.x ≤ cur.x) ∨
        (cur.x ≤ item.rect.center.x ∧ item.rect.center.x < prev.x)) ∧
      |cur.y - item.rect.center.y| < iconSize := by
  obtain ⟨hj, hact, hcross⟩ := crossCheck_sound h
  rcases hcross with ⟨_, hc, htol⟩ | ⟨hdom', _, _⟩
  · exact ⟨hj, hact, hc, htol⟩
  · exact absurd hdom (not_le_of_lt hdom')

theorem detectCrossing_sound {layout : GridLayout} {items : List GridItem}
    {activeIndex : ℤ} {prev cur : Point} {j : ℕ}
    (h : detectCrossing layout items activeIndex prev cur = some j) :
    ∃ item ∈ items, item.index = j ∧ (item.index : ℤ) ≠ activeIndex ∧
      specCrossed layout.iconSize prev cur item.rect.center := by
  obtain ⟨item, hmem, hc⟩ := List.exists_of_findSome?_eq_some h
  obtain ⟨hj, hact, hcross⟩ := crossCheck_sound hc
  exact ⟨item, hmem, hj, hact, hcross⟩

theorem detectCrossing_eq_none {layout : GridLayout} {items : List GridItem}
    {activeIndex : ℤ} {prev cur : Point}
    (h : ∀ item ∈ items, (item.index : ℤ) ≠ activeIndex →
      ¬ specCrossed layout.iconSize prev cur item.rect.center) :
    detectCrossing layout items activeIndex prev cur = none := by
  unfold detectCrossing
  rw [List.findSome?_eq_none_iff]
  intro item hmem
  by_cases hact : (item.index : ℤ) = activeIndex
  · exact crossCheck_eq_none (Or.inl hact)
  · exact crossCheck_eq_none (Or.inr (h item hmem hact))

theorem update_items (s : SlotState) (c : Point) : ((s.update c).1).items = s.items := by
  obtain ⟨lay, its, a, t, pc⟩ := s
  cases lay <;> cases pc <;> simp only [SlotState.update] <;> (try rfl) <;>
    (split <;> (try rfl) <;> split <;> rfl)

theorem update_activeIndex (s : SlotState) (c : Point) :
    ((s.update c).1).activeIndex = s.activeIndex := by
  obtain ⟨lay, its, a, t, pc⟩ := s
  cases lay <;> cases pc <;> simp only [SlotState.update] <;> (try rfl) <;>
    (split <;> (try rfl) <;> split <;> rfl)

theorem update_layout (s : SlotState) (c : Point) : ((s.update c).1).layout = s.layout := by
  obtain ⟨lay, its, a, t, pc⟩ := s
  cases lay <;> cases pc <;> simp only [SlotState.update] <;> (try rfl) <;>
    (split <;> (try rfl) <;> split <;> rfl)

theorem update_targetIndex_of_noCross (s : SlotState) (c : Point)
    (h : ∀ item ∈ s.items, (item.index : ℤ) ≠ s.activeIndex →
      ∀ p ∈ s.previousCenter, ∀ L ∈ s.layout,
        ¬ specCrossed L.iconSize p c item.rect.center) :
    ((s.update c).1).targetIndex = s.targetIndex := by
  obtain ⟨lay, its, a, t, pc⟩ := s
  cases lay with
  | none => rfl
  | some L =>
    cases pc with
    | none => rfl
    | some p =>
      have hnone : detectCrossing L its a p c = none := by
        apply detectCrossing_eq_none
        intro item hmem hact
        exact h item hmem hact p (Option.mem_def.mpr rfl) L (Option.mem_def.mpr rfl)
      simp only [SlotState.update, hnone]

theorem updateSeq_targetIndex (s : SlotState) (cs : List Point)
    (h : noSpecCrossSeq s cs) :
    (s.updateSeq cs).targetIndex = s.targetIndex := by
  induction cs generalizing s with
  | nil => rfl
  | cons c cs ih =>
    obtain ⟨h1, h2⟩ := h
    show (((s.update c).1).updateSeq cs).targetIndex = s.targetIndex
    rw [ih _ h2, update_targetIndex_of_noCross s c h1]

instance (iconSize : ℚ) (prev cur target : Point) :
    Decidable (specCrossed iconSize prev cur target) := by
  unfold specCrossed; infer_instance

theorem update_snd_sound {s : SlotState} {L : GridLayout} {p : Point} {c : Point} {j : ℤ}
    (hL : s.layout = some L) (hp : s.previousCenter = some p)
    (h : (s.update c).2 = some j) :
    ∃ n : ℕ, (n : ℤ) = j ∧ (n : ℤ) ≠ s.targetIndex ∧
      detectCrossing L s.items s.activeIndex p c = some n := by
  obtain ⟨lay, its, a, t, pc⟩ := s
  obtain rfl : lay = some L := hL
  obtain rfl : pc = some p := hp
  simp only [SlotState.update] at h
  cases hdc : detectCrossing L its a p c with
  | none => rw [hdc] at h; simp at h
  | some n =>
    rw [hdc] at h
    dsimp only at h
    split at h
    · rename_i hne
      simp only at h
      exact ⟨n, by injection h, by simpa using hne, rfl⟩
    · simp at h

theorem update_snd_none {s : SlotState} {L : GridLayout} {p : Point} {c : Point}
    (hL : s.layout = some L) (hp : s.previousCenter = some p)
    (hdc : detectCrossing L s.items s.activeIndex p c = none) :
    (s.update c).2 = none := by
  obtain ⟨lay, its, a, t, pc⟩ := s
  obtain rfl : lay = some L := hL
  obtain rfl : pc = some p := hp
  simp only [SlotState.update, hdc]

/-- C2: for every initialized `SlotDetection` state, `update(currentCenter)`
reports a new target index only when the dragged center actually crossed a
non-active item's center along the dominant movement axis (the axis with
the larger of `|Δx|`, `|Δy|`), i.e. moving right requires
`previousCenter.x < target.x ≤ currentCenter.x` (symmetrically for
left/up/down), with the perpendicular distance to that item's center
strictly within the `iconSize` tolerance; and along every move sequence in
which no such crossing occurs the recorded `targetIndex` never changes. -/
theorem slot_update_reports_only_center_crossings (s : SlotState) (L : GridLayout) (p : Point)
    (hL : s.layout = some L) (hp : s.previousCenter = some p) :
    (∀ c : Point, ∀ j : ℤ, (s.update c).2 = some j →
      j ≠ s.targetIndex ∧
      ∃ item ∈ s.items, (item.index : ℤ) = j ∧ (item.index : ℤ) ≠ s.activeIndex ∧
        specCrossed L.iconSize p c item.rect.center) ∧
    (∀ cs : List Point, noSpecCrossSeq s cs → (s.updateSeq cs).targetIndex = s.targetIndex) := by
  constructor
  · intro c j h
    obtain ⟨n, rfl, hne, hdc⟩ := update_snd_sound hL hp h
    obtain ⟨item, hmem, hj, hact, hcross⟩ := detectCrossing_sound hdc
    exact ⟨hne, item, hmem, by exact_mod_cast congrArg Nat.cast hj, hact, hcross⟩
  · exact fun cs h => updateSeq_targetIndex s cs h

/-- C9: when the per-frame delta has equal horizontal and vertical
magnitude (ties, including a zero delta), `detectCrossing` classifies the
movement as horizontal-primary: any reported target comes from an X-axis
center crossing with the Y-axis `iconSize` tolerance, and a zero delta
reports nothing at all. -/
theorem slot_tie_is_horizontal_primary (s : SlotState) (L : GridLayout) (p c : Point)
    (hL : s.layout = some L) (hp : s.previousCenter = some p)
    (hdelta : |c.x - p.x| = |c.y - p.y|) :
    (∀ j : ℤ, (s.update c).2 = some j →
      ∃ item ∈ s.items, (item.index : ℤ) = j ∧ (item.index : ℤ) ≠ s.activeIndex ∧
        ((p.x < item.rect.center.x ∧ item.rect.center.x ≤ c.x) ∨
          (c.x ≤ item.rect.center.x ∧ item.rect.center.x < p.x)) ∧
        |c.y - item.rect.center.y| < L.iconSize) ∧
    (c.x = p.x → (s.update c).2 = none) := by
  constructor
  · intro j h
    obtain ⟨n, rfl, _, hdc⟩ := update_snd_sound hL hp h
    obtain ⟨item, hmem, hc⟩ := List.exists_of_findSome?_eq_some hdc
    obtain ⟨hj, hact, hcross, htol⟩ := crossCheck_horiz_sound (le_of_eq hdelta.symm) hc
    exact ⟨item, hmem, by exact_mod_cast congrArg Nat.cast hj, hact, hcross, htol⟩
  · intro hx
    have hy : c.y = p.y := by
      have : |c.y - p.y| = 0 := by rw [← hdelta, hx]; simp
      have := abs_eq_zero.mp this
      linarith
    apply update_snd_none hL hp
    apply detectCrossing_eq_none
    intro item hmem hact hspec
    rcases hspec with ⟨_, hcr, _⟩ | ⟨hdom, _, _⟩
    · rcases hcr with ⟨h1, h2⟩ | ⟨h1, h2⟩ <;> rw [hx] at * <;> linarith
    · rw [hx, hy] at hdom; simp at hdom

/-! ### Concrete fixtures for witnesses: a four-item single-row grid -/

def witnessItems : List GridItem :=
  [⟨"a", 0, ⟨0, 0, 80, 80, ⟨40, 40⟩⟩⟩, ⟨"b", 1, ⟨100, 0, 80, 80, ⟨140, 40⟩⟩⟩,
   ⟨"c", 2, ⟨200, 0, 80, 80, ⟨240, 40⟩⟩⟩, ⟨"d", 3, ⟨300, 0, 80, 80, ⟨340, 40⟩⟩⟩]

def witnessLayout : GridLayout := calculateLayout witnessItems

def witnessSlot : SlotState := SlotState.reset.initialize witnessItems 0

theorem slot_update_reports_only_center_crossings_witness :
    (witnessSlot.layout = some witnessLayout ∧ witnessSlot.previousCenter = some ⟨40, 40⟩) ∧
    ((∀ c : Point, ∀ j : ℤ, (witnessSlot.update c).2 = some j →
      j ≠ witnessSlot.targetIndex ∧
      ∃ item ∈ witnessSlot.items, (item.index : ℤ) = j ∧
        (item.index : ℤ) ≠ witnessSlot.activeIndex ∧
        specCrossed witnessLayout.iconSize ⟨40, 40⟩ c item.rect.center) ∧
    (∀ cs : List Point, noSpecCrossSeq witnessSlot cs →
      (witnessSlot.updateSeq cs).targetIndex = witnessSlot.targetIndex)) :=
  ⟨⟨rfl, rfl⟩,
    slot_update_reports_only_center_crossings witnessSlot witnessLayout ⟨40, 40⟩ rfl rfl⟩

theorem slot_tie_is_horizontal_primary_witness :
    (witnessSlot.layout = some witnessLayout ∧ witnessSlot.previousCenter = some ⟨40, 40⟩ ∧
      |(150 : ℚ) - 40| = |(150 : ℚ) - 40|) ∧
    ((∀ j : ℤ, (witnessSlot.update ⟨150, 150⟩).2 = some j →
      ∃ item ∈ witnessSlot.items, (item.index : ℤ) = j ∧
        (item.index : ℤ) ≠ witnessSlot.activeIndex ∧
        (((40 : ℚ) < item.rect.center.x ∧ item.rect.center.x ≤ 150) ∨
          ((150 : ℚ) ≤ item.rect.center.x ∧ item.rect.center.x < 40)) ∧
        |(150 : ℚ) - item.rect.center.y| < witnessLayout.iconSize) ∧
    ((150 : ℚ) = 40 → (witnessSlot.update ⟨150, 150⟩).2 = none)) :=
  ⟨⟨rfl, rfl, rfl⟩,
    slot_tie_is_horizontal_primary witnessSlot witnessLayout ⟨40, 40⟩ ⟨150, 150⟩ rfl rfl rfl⟩

/-! ### Overlap lemmas (C10) -/

theorem calculateOverlap_bounds (a b : Rect) :
    0 ≤ calculateOverlap a b ∧ calculateOverlap a b ≤ 1 := by
  unfold calculateOverlap
  dsimp only
  split
  · norm_num
  · rename_i h
    push_neg at h
    obtain ⟨h1, h2⟩ := h
    split
    · rename_i hpos
      have hx1 : min (a.left + a.width) (b.left + b.width) ≤ a.left + a.width :=
        min_le_left _ _
      have hx2 : a.left ≤ max a.left b.left := le_max_left _ _
      have hy1 : min (a.top + a.height) (b.top + b.height) ≤ a.top + a.height :=
        min_le_left _ _
      have hy2 : a.top ≤ max a.top b.top := le_max_left _ _
      have hmul : (min (a.left + a.width) (b.left + b.width) - max a.left b.left) *
          (min (a.top + a.height) (b.top + b.height) - max a.top b.top) ≤
          a.width * a.height :=
        mul_le_mul (by linarith) (by linarith) (by linarith) (by linarith)
      constructor
      · apply div_nonneg _ (le_of_lt hpos)
        nlinarith
      · rw [div_le_one hpos]
        exact hmul
    · norm_num

theorem considerOverlap_inv (a : Rect) (ai ti : ℕ) (best : Option OverlapInfo)
    (item : GridItem)
    (h : ∀ o, best = some o → 0 < o.ratio ∧ o.ratio ≤ 1 ∧ o.targetIndex ≠ ai) :
    ∀ o, considerOverlap a ai ti best item = some o →
      0 < o.ratio ∧ o.ratio ≤ 1 ∧ o.targetIndex ≠ ai := by
  intro o ho
  unfold considerOverlap at ho
  split at ho
  · exact h o ho
  · rename_i hidx
    split at ho
    · exact h o ho
    · cases best with
      | none =>
        dsimp only at ho
        split at ho
        · rename_i hratio
          cases ho
          exact ⟨hratio, (calculateOverlap_bounds a item.rect).2, hidx⟩
        · exact absurd ho (by simp)
      | some b =>
        dsimp only at ho
        split at ho
        · rename_i hratio
          split at ho
          · cases ho
            exact ⟨hratio, (calculateOverlap_bounds a item.rect).2, hidx⟩
          · exact h o ho
        · exact h o ho

theorem findHighestOverlap_inv (a : Rect) (items : List GridItem) (ai ti : ℕ) :
    ∀ best : Option OverlapInfo,
      (∀ o, best = some o → 0 < o.ratio ∧ o.ratio ≤ 1 ∧ o.targetIndex ≠ ai) →
      ∀ o, items.foldl (considerOverlap a ai ti) best = some o →
        0 < o.ratio ∧ o.ratio ≤ 1 ∧ o.targetIndex ≠ ai := by
  induction items with
  | nil => exact fun best hbest o ho => hbest o ho
  | cons it rest ih =>
    exact fun best hbest o ho => ih _ (considerOverlap_inv a ai ti best it hbest) o ho

/-- C10: the overlap-ratio computation is total and bounded.
`calculateOverlap` always lies in `[0, 1]`; it is `0` when the rects do not
properly intersect or when the dragged rect's area is zero, and upon proper
intersection it is exactly the intersection area divided by the dragged
rect's area.  Consequently `findHighestOverlap` returns `none` or an
`OverlapInfo` whose ratio is strictly positive and at most `1` and whose
target index is never the active index. -/
theorem overlap_total_bounded_and_highest_valid :
    (∀ a b : Rect,
      (0 ≤ calculateOverlap a b ∧ calculateOverlap a b ≤ 1) ∧
      ((min (a.left + a.width) (b.left + b.width) ≤ max a.left b.left ∨
        min (a.top + a.height) (b.top + b.height) ≤ max a.top b.top) →
        calculateOverlap a b = 0) ∧
      (a.width * a.height = 0 → calculateOverlap a b = 0) ∧
      (max a.left b.left < min (a.left + a.width) (b.left + b.width) →
        max a.top b.top < min (a.top + a.height) (b.top + b.height) →
        calculateOverlap a b =
          (min (a.left + a.width) (b.left + b.width) - max a.left b.left) *
            (min (a.top + a.height) (b.top + b.height) - max a.top b.top) /
            (a.width * a.height))) ∧
    (∀ (a : Rect) (items : List GridItem) (ai ti : ℕ) (o : OverlapInfo),
      findHighestOverlap a items ai ti = some o →
      0 < o.ratio ∧ o.ratio ≤ 1 ∧ o.targetIndex ≠ ai) := by
  constructor
  · intro a b
    refine ⟨calculateOverlap_bounds a b, ?_, ?_, ?_⟩
    · intro h
      unfold calculateOverlap
      dsimp only
      split
      · rfl
      · rename_i hn
        push_neg at hn
        rcases h with h | h
        · exact absurd h (not_le_of_lt hn.1)
        · exact absurd h (not_le_of_lt hn.2)
    · intro h
      unfold calculateOverlap
      dsimp only
      split
      · rfl
      · rename_i hn
        push_neg at hn
        obtain ⟨h1, h2⟩ := hn
        exfalso
        rcases mul_eq_zero.mp h with hw | hh
        · have ha : min (a.left + a.width) (b.left + b.width) ≤ a.left + a.width :=
            min_le_left _ _
          have hb : a.left ≤ max a.left b.left := le_max_left _ _
          rw [hw, add_zero] at ha h1
          linarith
        · have ha : min (a.top + a.height) (b.top + b.height) ≤ a.top + a.height :=
            min_le_left _ _
          have hb : a.top ≤ max a.top b.top := le_max_left _ _
          rw [hh, add_zero] at ha h2
          linarith
    · intro hx hy
      unfold calculateOverlap
      dsimp only
      split
      · rename_i hor
        rcases hor with h | h
        · exact absurd hx (not_lt_of_le h)
        · exact absurd hy (not_lt_of_le h)
      · split
        · rfl
        · rename_i hpos
          exfalso
          apply hpos
          have hw : 0 < a.width := by
            have h1 : min (a.left + a.width) (b.left + b.width) ≤ a.left + a.width :=
              min_le_left _ _
            have h2 : a.left ≤ max a.left b.left := le_max_left _ _
            linarith
          have hh : 0 < a.height := by
            have h1 : min (a.top + a.height) (b.top + b.height) ≤ a.top + a.height :=
              min_le_left _ _
            have h2 : a.top ≤ max a.top b.top := le_max_left _ _
            linarith
          positivity
  · intro a items ai ti o ho
    exact findHighestOverlap_inv a items ai ti none (by intro o h; cases h) o ho

theorem overlap_total_bounded_and_highest_valid_witness :
    findHighestOverlap ⟨50, 0, 80, 80, ⟨90, 40⟩⟩ witnessItems 0 0 =
      some ⟨"b", 1, 3 / 8⟩ ∧
    (0 < (3 / 8 : ℚ) ∧ (3 / 8 : ℚ) ≤ 1 ∧ (1 : ℕ) ≠ 0) :=
  ⟨by norm_num [findHighestOverlap, considerOverlap, calculateOverlap, isItemShifted,
      witnessItems],
    overlap_total_bounded_and_highest_valid.2 ⟨50, 0, 80, 80, ⟨90, 40⟩⟩ witnessItems 0 0
      ⟨"b", 1, 3 / 8⟩
      (by norm_num [findHighestOverlap, considerOverlap, calculateOverlap, isItemShifted,
        witnessItems])⟩

/-! ## Grid transforms (`src/lib/dnd/GridTransforms.ts`) -/

/-- The write `applyShifts` / `reset` performs on one item's inline style:
`cleared` is `reset()`'s `transition = "none"; transform = ""`, `zero` is
the explicit `translate3d(0, 0, 0)`, and `shift dx dy` is
`translate3d(dx px, dy px, 0)`. -/
inductive TWrite where
  | cleared
  | zero
  | shift (dx dy : ℚ)
  deriving Repr, DecidableEq

/-- `GridTransforms.applyShifts(activeIndex, targetIndex)` as the list of
per-item style writes (`none` = the item's style is left untouched):
equal indices reset every item; a missing active item aborts with no
writes; otherwise items in `[startIdx, endIdx]` are translated onto their
neighbor in the shift direction, the active item is skipped, and everything
else gets the explicit zero transform. -/
def applyShifts (items : List GridItem) (activeIndex targetIndex : ℕ) :
    List (GridItem × Option TWrite) :=
  if activeIndex = targetIndex then items.map fun it => (it, some TWrite.cleared)
  else
    match items.get? activeIndex with
    | none => items.map fun it => (it, none)
    | some _ =>
      let movingForward := decide (activeIndex < targetIndex)
      let startIdx := if movingForward then activeIndex + 1 else targetIndex
      let endIdx := if movingForward then targetIndex else activeIndex - 1
      items.map fun item =>
        if item.index = activeIndex then (item, none)
        else if startIdx ≤ item.index ∧ item.index ≤ endIdx then
          match items.get? (if movingForward then item.index - 1 else item.index + 1) with
          | some shiftTarget =>
            (item, some (TWrite.shift (shiftTarget.rect.left - item.rect.left)
              (shiftTarget.rect.top - item.rect.top)))
          | none => (item, none)
        else (item, some TWrite.zero)

/-- The per-item write as the specification words it: if the indices are
equal everything is reset; the active item is untouched; an item whose
index lies between active and target (inclusive of the target index,
exclusive of the active index) is offset onto its immediate neighbor
(index − 1 when moving forward, index + 1 when moving backward); every
other item gets an explicit zero transform. -/
def specShiftWrite (items : List GridItem) (activeIndex targetIndex : ℕ)
    (item : GridItem) : Option TWrite :=
  if activeIndex = targetIndex then some TWrite.cleared
  else if item.index = activeIndex then none
  else if min activeIndex targetIndex ≤ item.index ∧
      item.index ≤ max activeIndex targetIndex then
    match items.get? (if activeIndex < targetIndex then item.index - 1 else item.index + 1) with
    | some neighbor =>
      some (TWrite.shift (neighbor.rect.left - item.rect.left)
        (neighbor.rect.top - item.rect.top))
    | none => none
  else some TWrite.zero

/-- C4: with contiguously-indexed cached items and in-range indices,
`applyShifts` performs exactly the writes the specification describes:
reset on equal indices, otherwise neighbor-offset transforms on the span
(inclusive of the target, exclusive of the active), explicit zero outside
the span, and no write at all on the active item. -/
theorem applyShifts_matches_spec (items : List GridItem) (a t : ℕ)
    (hwf : ∀ k, (h : k < items.length) → (items.get ⟨k, h⟩).index = k)
    (ha : a < items.length) (ht : t < items.length) :
    applyShifts items a t = items.map fun item => (item, specShiftWrite items a t item) := by
  unfold applyShifts
  by_cases heq : a = t
  · subst heq
    rw [if_pos rfl]
    apply List.map_congr_left
    intro item _
    rw [specShiftWrite, if_pos rfl]
  · rw [if_neg heq, List.get?_eq_get ha]
    dsimp only
    apply List.map_congr_left
    intro item hmem
    obtain ⟨⟨k, hk⟩, rfl⟩ := List.mem_iff_get.mp hmem
    have hidx : (items.get ⟨k, hk⟩).index = k := hwf k hk
    by_cases hact : (items.get ⟨k, hk⟩).index = a
    · rw [if_pos hact, specShiftWrite, if_neg heq, if_pos hact]
    · rw [if_neg hact, specShiftWrite, if_neg heq, if_neg hact]
      by_cases hf : a < t
      · have hspan : ((if decide (a < t) = true then a + 1 else t) ≤ (items.get ⟨k, hk⟩).index ∧
            (items.get ⟨k, hk⟩).index ≤ if decide (a < t) = true then t else a - 1) ↔
            (min a t ≤ (items.get ⟨k, hk⟩).index ∧ (items.get ⟨k, hk⟩).index ≤ max a t) := by
          rw [if_pos (by simpa using hf), if_pos (by simpa using hf)]
          rw [hidx] at hact ⊢
          omega
        by_cases hin : min a t ≤ (items.get ⟨k, hk⟩).index ∧
            (items.get ⟨k, hk⟩).index ≤ max a t
        · rw [if_pos (hspan.mpr hin), if_pos hin,
            if_pos (by simpa using hf), if_pos hf]
          cases items.get? ((items.get ⟨k, hk⟩).index - 1) <;> rfl
        · rw [if_neg (fun hc => hin (hspan.mp hc)), if_neg hin]
      · have hspan : ((if decide (a < t) = true then a + 1 else t) ≤ (items.get ⟨k, hk⟩).index ∧
            (items.get ⟨k, hk⟩).index ≤ if decide (a < t) = true then t else a - 1) ↔
            (min a t ≤ (items.get ⟨k, hk⟩).index ∧ (items.get ⟨k, hk⟩).index ≤ max a t) := by
          rw [if_neg (by simpa using hf), if_neg (by simpa using hf)]
          rw [hidx] at hact ⊢
          omega
        by_cases hin : min a t ≤ (items.get ⟨k, hk⟩).index ∧
            (items.get ⟨k, hk⟩).index ≤ max a t
        · rw [if_pos (hspan.mpr hin), if_pos hin,
            if_neg (by simpa using hf), if_neg hf]
          cases items.get? ((items.get ⟨k, hk⟩).index + 1) <;> rfl
        · rw [if_neg (fun hc => hin (hspan.mp hc)), if_neg hin]

theorem applyShifts_matches_spec_witness :
    ((∀ k, (h : k < witnessItems.length) → (witnessItems.get ⟨k, h⟩).index = k) ∧
      0 < witnessItems.length ∧ 2 < witnessItems.length) ∧
    applyShifts witnessItems 0 2 =
      witnessItems.map fun item => (item, specShiftWrite witnessItems 0 2 item) :=
  ⟨⟨by decide, by decide, by decide⟩,
    applyShifts_matches_spec witnessItems 0 2 (by decide) (by decide) (by decide)⟩

/-! ## Engine target-index tracking
(`src/lib/helper-dnd/DragEngine.ts`, `handleDragStart` / `handleDragMove`) -/

/-- The engine-side drag state relevant to target tracking: the slot
detector plus the single `DragState.targetIndex` field. -/
structure EngineDrag where
  slot : SlotState
  targetIndex : ℤ
  deriving Repr, DecidableEq

/-- `handleDragStart` / `startDragAt`: `state.targetIndex := activeIndex`
and `slotDetection.initialize(items, activeIndex)`. -/
def engineStartDrag (items : List GridItem) (activeIndex : ℕ) : EngineDrag :=
  { slot := SlotState.reset.initialize items activeIndex
    targetIndex := (activeIndex : ℤ) }

/-- `handleDragMove`: query `slotDetection.update`; replace
`state.targetIndex` only when a new index is reported. -/
def engineMove (e : EngineDrag) (newCenter : Point) : EngineDrag :=
  let r := e.slot.update newCenter
  { slot := r.1
    targetIndex :=
      match r.2 with
      | some j => j
      | none => e.targetIndex }

/-- Iterated `engineMove` over a list of move centers. -/
def engineMoves (e : EngineDrag) : List Point → EngineDrag
  | [] => e
  | c :: cs => engineMoves (engineMove e c) cs

theorem update_snd_mem {s : SlotState} {c : Point} {j : ℤ}
    (h : (s.update c).2 = some j) :
    ∃ item ∈ s.items, (item.index : ℤ) = j := by
  obtain ⟨lay, its, a, t, pc⟩ := s
  cases lay with
  | none => simp [SlotState.update] at h
  | some L =>
    cases pc with
    | none => simp [SlotState.update] at h
    | some p =>
      obtain ⟨n, rfl, _, hdc⟩ := update_snd_sound rfl rfl h
      obtain ⟨item, hmem, hj, _, _⟩ := detectCrossing_sound hdc
      exact ⟨item, hmem, by exact_mod_cast congrArg Nat.cast hj⟩

theorem engineMoves_invariant (items : List GridItem)
    (hwf : ∀ item ∈ items, item.index < items.length) (moves : List Point) :
    ∀ e : EngineDrag, e.slot.items = items →
      0 ≤ e.targetIndex → e.targetIndex < (items.length : ℤ) →
      (engineMoves e moves).slot.items = items ∧
      0 ≤ (engineMoves e moves).targetIndex ∧
      (engineMoves e moves).targetIndex < (items.length : ℤ) := by
  induction moves with
  | nil => exact fun e h1 h2 h3 => ⟨h1, h2, h3⟩
  | cons c cs ih =>
    intro e h1 h2 h3
    have hitems : ((e.slot.update c).1).items = items := by rw [update_items, h1]
    cases hr : (e.slot.update c).2 with
    | none =>
      exact ih (engineMove e c) (by simp [engineMove, hitems])
        (by simp [engineMove, hr, h2]) (by simp [engineMove, hr, h3])
    | some j =>
      obtain ⟨item, hmem, hj⟩ := update_snd_mem hr
      rw [h1] at hmem
      have hbound : j < (items.length : ℤ) := by
        rw [← hj]; exact_mod_cast hwf item hmem
      have hnn : 0 ≤ j := by rw [← hj]; exact_mod_cast Nat.zero_le _
      exact ih (engineMove e c) (by simp [engineMove, hitems])
        (by simp [engineMove, hr, hnn]) (by simp [engineMove, hr, hbound])

/-- C8: for every drag started on `n` cached items, the engine holds a
single `targetIndex` (one state field), initialized to the active item's
index, replaced exactly when `SlotDetection.update` reports a new index and
left unchanged otherwise; and after any sequence of moves it lies in
`[0, n − 1]`. -/
theorem engine_targetIndex_single_and_in_range (items : List GridItem) (activeIndex : ℕ)
    (hwf : ∀ item ∈ items, item.index < items.length)
    (ha : activeIndex < items.length) :
    (engineStartDrag items activeIndex).targetIndex = (activeIndex : ℤ) ∧
    (∀ e : EngineDrag, ∀ c : Point,
      ((e.slot.update c).2 = none → (engineMove e c).targetIndex = e.targetIndex) ∧
      (∀ j, (e.slot.update c).2 = some j → (engineMove e c).targetIndex = j)) ∧
    (∀ moves : List Point,
      0 ≤ (engineMoves (engineStartDrag items activeIndex) moves).targetIndex ∧
      (engineMoves (engineStartDrag items activeIndex) moves).targetIndex <
        (items.length : ℤ)) := by
  refine ⟨rfl, ?_, ?_⟩
  · intro e c
    constructor
    · intro h; simp [engineMove, h]
    · intro j h; simp [engineMove, h]
  · intro moves
    have hne : items.length ≠ 0 := by omega
    have hstart : (engineStartDrag items activeIndex).slot.items = items := by
      simp [engineStartDrag, SlotState.initialize, hne]
    have := engineMoves_invariant items hwf moves (engineStartDrag items activeIndex)
      hstart (by simp [engineStartDrag]) (by simp [engineStartDrag]; exact_mod_cast ha)
    exact ⟨this.2.1, this.2.2⟩

theorem engine_targetIndex_single_and_in_range_witness :
    ((∀ item ∈ witnessItems, item.index < witnessItems.length) ∧
      0 < witnessItems.length) ∧
    ((engineStartDrag witnessItems 0).targetIndex = (0 : ℤ) ∧
      (∀ e : EngineDrag, ∀ c : Point,
        ((e.slot.update c).2 = none → (engineMove e c).targetIndex = e.targetIndex) ∧
        (∀ j, (e.slot.update c).2 = some j → (engineMove e c).targetIndex = j)) ∧
      (∀ moves : List Point,
        0 ≤ (engineMoves (engineStartDrag witnessItems 0) moves).targetIndex ∧
        (engineMoves (engineStartDrag witnessItems 0) moves).targetIndex <
          (witnessItems.length : ℤ))) :=
  ⟨⟨by decide, by decide⟩,
    engine_targetIndex_single_and_in_range witnessItems 0 (by decide) (by decide)⟩

/-! ## Folder actions on the main-grid order (`src/hooks/useGrid.ts`) -/

/-- TS `Array.prototype.indexOf`: index of the first occurrence, `-1` when
absent. -/
def tsIndexOf (l : List String) (x : String) : ℤ :=
  match l.findIdx? (· = x) with
  | some i => (i : ℤ)
  | none => -1

/-- JS `Array.prototype.splice(start, 0, x)` insertion: a negative start
counts from the end (clamped at 0), otherwise it is clamped to the
length. -/
def jsSpliceInsert (l : List String) (start : ℤ) (x : String) : List String :=
  let n : ℕ := if start < 0 then ((l.length : ℤ) + start).toNat else min start.toNat l.length
  l.insertIdx n x

/-- `handleCreateFolder` (`src/hooks/useGrid.ts`), restricted to its order
computation: remove both apps, then insert the new folder id at the
target's index, decremented when the source preceded the target and clamped
to the remaining length. -/
def createFolderOrder (currentOrder : List String) (sourceAppId targetAppId folderId : String) :
    List String :=
  let sourceIndex := tsIndexOf currentOrder sourceAppId
  let targetIndex := tsIndexOf currentOrder targetAppId
  let newOrder := currentOrder.filter fun id => decide (id ≠ sourceAppId ∧ id ≠ targetAppId)
  let insertIndex := if sourceIndex < targetIndex then targetIndex - 1 else targetIndex
  let insertIndex := min insertIndex (newOrder.length : ℤ)
  jsSpliceInsert newOrder insertIndex folderId

/-- `handleAddToFolder` (`src/hooks/useGrid.ts`): the app is removed from
the main order. -/
def addToFolderOrder (currentOrder : List String) (appId : String) : List String :=
  currentOrder.filter fun id => decide (id ≠ appId)

/-- `handleAddToFolder` (`src/hooks/useGrid.ts`): the app id is appended to
the folder's `appPaths`. -/
def addToFolderAppPaths (appPaths : List String) (appId : String) : List String :=
  appPaths ++ [appId]

theorem tsIndexOf_append_cons (l r : List String) (x : String) (h : x ∉ l) :
    tsIndexOf (l ++ x :: r) x = (l.length : ℤ) := by
  unfold tsIndexOf
  rw [List.findIdx?_append]
  have hnone : l.findIdx? (· = x) = none := by
    rw [List.findIdx?_eq_none_iff]
    intro y hy
    simp only [decide_eq_false_iff_not]
    exact fun hxy => h (hxy ▸ hy)
  rw [hnone]
  simp [List.findIdx?_cons]

theorem insertIdx_append_length (A B : List String) (x : String) :
    (A ++ B).insertIdx A.length x = A ++ x :: B := by
  induction A with
  | nil => rfl
  | cons a A ih => simpa [List.insertIdx_succ_cons] using ih

theorem filter_ne_of_not_mem (l : List String) (s t : String) (hs : s ∉ l) (ht : t ∉ l) :
    (l.filter fun id => decide (id ≠ s ∧ id ≠ t)) = l := by
  rw [List.filter_eq_self]
  intro a ha
  simp only [decide_eq_true_eq]
  exact ⟨fun h => hs (h ▸ ha), fun h => ht (h ▸ ha)⟩

theorem filter_ne_single (l : List String) (s : String) (hs : s ∉ l) :
    (l.filter fun id => decide (id ≠ s)) = l := by
  rw [List.filter_eq_self]
  intro a ha
  simp only [decide_eq_true_eq]
  exact fun h => hs (h ▸ ha)

theorem jsSpliceInsert_toIdx (l : List String) (k : ℕ) (x : String) (hk : k ≤ l.length) :
    jsSpliceInsert l (k : ℤ) x = l.insertIdx k x := by
  unfold jsSpliceInsert
  dsimp only
  rw [if_neg (by omega), Int.toNat_natCast, min_eq_left hk]

theorem createFolderOrder_src_before_tgt (A1 A2 B : List String) (s t f : String)
    (hnd : (A1 ++ s :: A2 ++ t :: B).Nodup) (hst : s ≠ t) :
    createFolderOrder (A1 ++ s :: A2 ++ t :: B) s t f = A1 ++ A2 ++ f :: B := by
  have np := List.nodup_append.mp hnd
  have np2 := List.nodup_append.mp np.1
  have hsA1 : s ∉ A1 := fun h => np2.2.2 h (List.mem_cons_self _ _)
  have hsA2 : s ∉ A2 := (List.nodup_cons.mp np2.2.1).1
  have htA1 : t ∉ A1 := fun h =>
    np.2.2 (List.mem_append_left _ h) (List.mem_cons_self _ _)
  have htA2 : t ∉ A2 := fun h =>
    np.2.2 (List.mem_append_right _ (List.mem_cons_of_mem _ h)) (List.mem_cons_self _ _)
  have htB : t ∉ B := (List.nodup_cons.mp np.2.1).1
  have hsB : s ∉ B := fun h =>
    np.2.2 (List.mem_append_right _ (List.mem_cons_self _ _)) (List.mem_cons_of_mem _ h)
  have hre : A1 ++ s :: A2 ++ t :: B = A1 ++ s :: (A2 ++ t :: B) := by simp
  have hsIdx : tsIndexOf (A1 ++ s :: A2 ++ t :: B) s = (A1.length : ℤ) := by
    rw [hre]
    exact tsIndexOf_append_cons A1 (A2 ++ t :: B) s hsA1
  have htA1sA2 : t ∉ A1 ++ s :: A2 := by
    simp only [List.mem_append, List.mem_cons, not_or]
    exact ⟨htA1, fun h => hst h.symm, htA2⟩
  have htIdx : tsIndexOf (A1 ++ s :: A2 ++ t :: B) t = ((A1 ++ s :: A2).length : ℤ) :=
    tsIndexOf_append_cons (A1 ++ s :: A2) B t htA1sA2
  have hfA1 := filter_ne_of_not_mem A1 s t hsA1 htA1
  have hfA2 := filter_ne_of_not_mem A2 s t hsA2 htA2
  have hfB := filter_ne_of_not_mem B s t hsB htB
  have hfil : ((A1 ++ s :: A2 ++ t :: B).filter fun id => decide (id ≠ s ∧ id ≠ t)) =
      (A1 ++ A2) ++ B := by
    simp only [List.filter_append, List.filter_cons, hfA1, hfA2, hfB]
    simp [hst]
  unfold createFolderOrder
  rw [hsIdx, htIdx, hfil]
  dsimp only
  have hlt : (A1.length : ℤ) < ((A1 ++ s :: A2).length : ℤ) := by
    simp only [List.length_append, List.length_cons]
    push_cast
    omega
  rw [if_pos hlt]
  have hmin : min (((A1 ++ s :: A2).length : ℤ) - 1) ((((A1 ++ A2) ++ B).length : ℕ) : ℤ) =
      (((A1 ++ A2).length : ℕ) : ℤ) := by
    simp only [List.length_append, List.length_cons]
    push_cast
    omega
  rw [hmin, jsSpliceInsert_toIdx _ _ _ (by simp [List.length_append])]
  exact insertIdx_append_length (A1 ++ A2) B f

theorem createFolderOrder_tgt_before_src (A B1 B2 : List String) (s t f : String)
    (hnd : (A ++ t :: B1 ++ s :: B2).Nodup) (hst : s ≠ t) :
    createFolderOrder (A ++ t :: B1 ++ s :: B2) s t f = A ++ f :: (B1 ++ B2) := by
  have np := List.nodup_append.mp hnd
  have np2 := List.nodup_append.mp np.1
  have htA : t ∉ A := fun h => np2.2.2 h (List.mem_cons_self _ _)
  have htB1 : t ∉ B1 := (List.nodup_cons.mp np2.2.1).1
  have htB2 : t ∉ B2 := fun h =>
    np.2.2 (List.mem_append_right _ (List.mem_cons_self _ _)) (List.mem_cons_of_mem _ h)
  have hsA : s ∉ A := fun h => np.2.2 (List.mem_append_left _ h) (List.mem_cons_self _ _)
  have hsB1 : s ∉ B1 := fun h =>
    np.2.2 (List.mem_append_right _ (List.mem_cons_of_mem _ h)) (List.mem_cons_self _ _)
  have hsB2 : s ∉ B2 := (List.nodup_cons.mp np.2.1).1
  have hsAtB1 : s ∉ A ++ t :: B1 := by
    simp only [List.mem_append, List.mem_cons, not_or]
    exact ⟨hsA, hst, hsB1⟩
  have hsIdx : tsIndexOf (A ++ t :: B1 ++ s :: B2) s = ((A ++ t :: B1).length : ℤ) :=
    tsIndexOf_append_cons (A ++ t :: B1) B2 s hsAtB1
  have hre : A ++ t :: B1 ++ s :: B2 = A ++ t :: (B1 ++ s :: B2) := by simp
  have htIdx : tsIndexOf (A ++ t :: B1 ++ s :: B2) t = (A.length : ℤ) := by
    rw [hre]
    exact tsIndexOf_append_cons A (B1 ++ s :: B2) t htA
  have hfA := filter_ne_of_not_mem A s t hsA htA
  have hfB1 := filter_ne_of_not_mem B1 s t hsB1 htB1
  have hfB2 := filter_ne_of_not_mem B2 s t hsB2 htB2
  have hfil : ((A ++ t :: B1 ++ s :: B2).filter fun id => decide (id ≠ s ∧ id ≠ t)) =
      A ++ (B1 ++ B2) := by
    simp only [List.filter_append, List.filter_cons, hfA, hfB1, hfB2]
    simp [hst]
  unfold createFolderOrder
  rw [hsIdx, htIdx, hfil]
  dsimp only
  have hnlt : ¬ ((A ++ t :: B1).length : ℤ) < (A.length : ℤ) := by
    simp only [List.length_append, List.length_cons]
    push_cast
    omega
  rw [if_neg hnlt]
  have hmin : min ((A.length : ℕ) : ℤ) (((A ++ (B1 ++ B2)).length : ℕ) : ℤ) =
      ((A.length : ℕ) : ℤ) := by
    simp only [List.length_append]
    push_cast
    omega
  rw [hmin, jsSpliceInsert_toIdx _ _ _ (by simp [List.length_append])]
  exact insertIdx_append_length A (B1 ++ B2) f

/-- C7: on a duplicate-free main-grid order containing both apps,
create-folder removes both app ids and inserts the new folder id at the
position the target formerly occupied among the remaining items (target's
old index minus one when the source preceded it), and add-to-folder appends
the app id to the folder's `appPaths` while removing it from the main
order. -/
theorem folder_actions_update_order :
    (∀ (A1 A2 B : List String) (s t f : String),
      (A1 ++ s :: A2 ++ t :: B).Nodup → s ≠ t →
      createFolderOrder (A1 ++ s :: A2 ++ t :: B) s t f = A1 ++ A2 ++ f :: B) ∧
    (∀ (A B1 B2 : List String) (s t f : String),
      (A ++ t :: B1 ++ s :: B2).Nodup → s ≠ t →
      createFolderOrder (A ++ t :: B1 ++ s :: B2) s t f = A ++ f :: (B1 ++ B2)) ∧
    (∀ (C D : List String) (app : String),
      (C ++ app :: D).Nodup →
      addToFolderOrder (C ++ app :: D) app = C ++ D) ∧
    (∀ (appPaths : List String) (app : String),
      addToFolderAppPaths appPaths app = appPaths ++ [app]) := by
  refine ⟨createFolderOrder_src_before_tgt, createFolderOrder_tgt_before_src, ?_, fun _ _ => rfl⟩
  intro C D app hnd
  have np := List.nodup_append.mp hnd
  have hC : app ∉ C := fun h => np.2.2 h (List.mem_cons_self _ _)
  have hD : app ∉ D := (List.nodup_cons.mp np.2.1).1
  unfold addToFolderOrder
  rw [List.filter_append, filter_ne_single C app hC, List.filter_cons]
  rw [if_neg (by simp), filter_ne_single D app hD]

theorem folder_actions_update_order_witness :
    ((["a"] ++ "b" :: ["x"] ++ "c" :: ["d"]).Nodup ∧ "b" ≠ "c" ∧
      (["a", "b"] ++ "c" :: ["d"]).Nodup) ∧
    (createFolderOrder (["a"] ++ "b" :: ["x"] ++ "c" :: ["d"]) "b" "c" "folder-1" =
      ["a"] ++ ["x"] ++ "folder-1" :: ["d"] ∧
     addToFolderOrder (["a", "b"] ++ "c" :: ["d"]) "c" = ["a", "b"] ++ ["d"] ∧
     addToFolderAppPaths ["p", "q"] "c" = ["p", "q"] ++ ["c"]) :=
  ⟨⟨by decide, by decide, by decide⟩,
    folder_actions_update_order.1 ["a"] ["x"] ["d"] "b" "c" "folder-1" (by decide) (by decide),
    folder_actions_update_order.2.2.1 ["a", "b"] ["d"] "c" (by decide),
    folder_actions_update_order.2.2.2 ["p", "q"] "c"⟩

/-! ## Folder-creation policy (`useFolderCreation` in
`src/hooks/useOrderPersistence.ts`) -/

/-- Result of `getItemType` (`"app" | "folder" | null`). -/
inductive ItemType where
  | app
  | folder
  deriving Repr, DecidableEq

/-- A `DropTargetState` action (`"create-folder" | "add-to-folder"`); the
whole drop target is `Option (String × DropAction)`. -/
inductive DropAction where
  | createFolder
  | addToFolder
  deriving Repr, DecidableEq

/-- The `hoverRef` record: hovered target id, the pending dwell timer as an
absolute expiry time (`none` once fired or never set), and the `triggered`
flag. -/
structure HoverRec where
  id : String
  timerExpiry : Option ℚ
  triggered : Bool
  deriving Repr, DecidableEq

/-- The mutable state of `useFolderCreation`: the `dropTarget` React state
and the `hoverRef` dwell record (`none` after `clearHoverTimer`). -/
structure PolicyState where
  dropTarget : Option (String × DropAction)
  hover : Option HoverRec
  deriving Repr, DecidableEq

/-- The part of `DragMoveInfo` the policy reads: the dragged id and the
highest-overlap candidate. -/
structure MoveInfo where
  activeId : String
  overlap : Option OverlapInfo
  deriving Repr, DecidableEq

/-- `useFolderCreation.handleDragMove` at wall-clock time `now`:
no/self overlap clears everything; only a dragged app can trigger folder
actions; app over folder at or above the threshold sets the
"add-to-folder" indicator immediately (below it, clears); app over app at
or above the threshold leaves the state alone while the same target is
hovered, and otherwise cancels any pending timer and arms a fresh
full-length dwell timer for the new target with the indicator cleared. -/
def handleDragMove (getType : String → Option ItemType)
    (overlapThreshold folderCreationDelay : ℚ)
    (s : PolicyState) (now : ℚ) (info : MoveInfo) : PolicyState :=
  match info.overlap with
  | none => { dropTarget := none, hover := none }
  | some overlap =>
    if overlap.targetId = info.activeId then { dropTarget := none, hover := none }
    else
      let overId := overlap.targetId
      let overlapRatio := overlap.ratio
      match getType info.activeId with
      | some ItemType.app =>
        match getType overId with
        | some ItemType.folder =>
          if overlapThreshold ≤ overlapRatio then
            { dropTarget := some (overId, DropAction.addToFolder), hover := none }
          else { dropTarget := none, hover := none }
        | some ItemType.app =>
          if overlapRatio < overlapThreshold then { dropTarget := none, hover := none }
          else
            match s.hover with
            | some hover =>
              if hover.id = overId then s
              else
                { dropTarget := none
                  hover := some ⟨overId, some (now + folderCreationDelay), false⟩ }
            | none =>
              { dropTarget := none
                hover := some ⟨overId, some (now + folderCreationDelay), false⟩ }
        | none => { dropTarget := none, hover := none }
      | _ => { dropTarget := none, hover := none }

/-- The dwell-timer callback (`setTimeout` body in `handleDragMove`): when
a pending timer has reached its expiry, set the "create-folder" indicator
for the hovered id and mark the hover record triggered with no live
timer. -/
def handleTimerFire (s : PolicyState) (now : ℚ) : PolicyState :=
  match s.hover with
  | some hover =>
    match hover.timerExpiry with
    | some expiry =>
      if expiry ≤ now then
        { dropTarget := some (hover.id, DropAction.createFolder)
          hover := some ⟨hover.id, none, true⟩ }
      else s
    | none => s
  | none => s

/-- C6: an app dragged over a folder with overlap at or above the
threshold gets the "add-to-folder" indicator on that same move event with
no dwell timer; a move with no overlap, or whose highest overlap is below
the threshold, clears the indicator. -/
theorem policy_add_to_folder_immediate (getType : String → Option ItemType)
    (th delay : ℚ) (s : PolicyState) (now : ℚ) (info : MoveInfo) :
    (∀ overlap : OverlapInfo, info.overlap = some overlap →
      overlap.targetId ≠ info.activeId →
      getType info.activeId = some ItemType.app →
      getType overlap.targetId = some ItemType.folder →
      th ≤ overlap.ratio →
      handleDragMove getType th delay s now info =
        { dropTarget := some (overlap.targetId, DropAction.addToFolder), hover := none }) ∧
    (info.overlap = none →
      (handleDragMove getType th delay s now info).dropTarget = none) ∧
    (∀ overlap : OverlapInfo, info.overlap = some overlap → overlap.ratio < th →
      (handleDragMove getType th delay s now info).dropTarget = none) := by
  refine ⟨?_, ?_, ?_⟩
  · intro overlap ho hne hact hoverT hth
    simp only [handleDragMove, ho, if_neg hne, hact, hoverT, if_pos hth]
  · intro h
    simp only [handleDragMove, h]
  · intro overlap ho hlt
    simp only [handleDragMove, ho]
    split
    · rfl
    · cases hact : getType info.activeId with
      | none => simp
      | some ty =>
        cases ty with
        | folder => simp
        | app =>
          cases hoverT : getType overlap.targetId with
          | none => simp
          | some ty2 =>
            cases ty2 with
            | app => simp [hlt]
            | folder => simp [not_le_of_lt hlt]

/-- C5: the "create-folder" indicator for an app-over-app hover at or
above the threshold arises only from a dwell timer that ran its full
`folderCreationDelay` on an unchanged hovered target: arriving on a new
target cancels any pending timer and arms a fresh full-length one with the
indicator cleared; staying on the same target leaves the running timer
untouched; no move event ever raises the indicator itself; and the timer
callback raises it exactly when a pending timer has reached its expiry,
for the hovered id. -/
theorem policy_create_folder_needs_full_dwell (getType : String → Option ItemType)
    (th delay : ℚ) :
    (∀ (s : PolicyState) (now : ℚ) (info : MoveInfo) (overlap : OverlapInfo),
      info.overlap = some overlap →
      overlap.targetId ≠ info.activeId →
      getType info.activeId = some ItemType.app →
      getType overlap.targetId = some ItemType.app →
      th ≤ overlap.ratio →
      (∀ h ∈ s.hover, h.id ≠ overlap.targetId) →
      handleDragMove getType th delay s now info =
        { dropTarget := none
          hover := some ⟨overlap.targetId, some (now + delay), false⟩ }) ∧
    (∀ (s : PolicyState) (now : ℚ) (info : MoveInfo) (overlap : OverlapInfo) (h : HoverRec),
      info.overlap = some overlap →
      overlap.targetId ≠ info.activeId →
      getType info.activeId = some ItemType.app →
      getType overlap.targetId = some ItemType.app →
      th ≤ overlap.ratio →
      s.hover = some h → h.id = overlap.targetId →
      handleDragMove getType th delay s now info = s) ∧
    (∀ (s : PolicyState) (now : ℚ) (info : MoveInfo) (id : String),
      (handleDragMove getType th delay s now info).dropTarget =
        some (id, DropAction.createFolder) →
      s.dropTarget = some (id, DropAction.createFolder)) ∧
    (∀ (s : PolicyState) (now : ℚ),
      (s.hover = none → handleTimerFire s now = s) ∧
      (∀ (id : String) (e : ℚ) (trig : Bool), s.hover = some ⟨id, some e, trig⟩ →
        (e ≤ now → handleTimerFire s now =
          { dropTarget := some (id, DropAction.createFolder)
            hover := some ⟨id, none, true⟩ }) ∧
        (now < e → handleTimerFire s now = s)) ∧
      (∀ (id : String) (trig : Bool), s.hover = some ⟨id, none, trig⟩ →
        handleTimerFire s now = s)) := by
  refine ⟨?_, ?_, ?_, ?_⟩
  · intro s now info overlap ho hne hact hoverT hth hh
    simp only [handleDragMove, ho, if_neg hne, hact, hoverT, if_neg (not_lt_of_le hth)]
    cases hs : s.hover with
    | none => simp
    | some h =>
      have hhid : ¬ h.id = overlap.targetId := hh h (Option.mem_def.mpr hs)
      simp [hhid]
  · intro s now info overlap h ho hne hact hoverT hth hs hid
    simp only [handleDragMove, ho, if_neg hne, hact, hoverT,
      if_neg (not_lt_of_le hth), hs, if_pos hid]
  · intro s now info id h
    simp only [handleDragMove] at h
    cases hov : info.overlap with
    | none => rw [hov] at h; simp at h
    | some overlap =>
      rw [hov] at h
      dsimp only at h
      split at h
      · simp at h
      · cases hact : getType info.activeId with
        | none => rw [hact] at h; simp at h
        | some ty =>
          rw [hact] at h
          cases ty with
          | folder => simp at h
          | app =>
            cases hoverT : getType overlap.targetId with
            | none => rw [hoverT] at h; simp at h
            | some ty2 =>
              rw [hoverT] at h
              cases ty2 with
              | folder =>
                dsimp only at h
                split at h <;> simp at h
              | app =>
                dsimp only at h
                split at h
                · simp at h
                · cases hs : s.hover with
                  | none => rw [hs] at h; simp at h
                  | some hr =>
                    rw [hs] at h
                    dsimp only at h
                    split at h
                    · exact h
                    · simp at h
  · intro s now
    refine ⟨?_, ?_, ?_⟩
    · intro h; simp only [handleTimerFire, h]
    · intro id e trig hs
      constructor
      · intro hle; simp only [handleTimerFire, hs, if_pos hle]
      · intro hlt; simp only [handleTimerFire, hs, if_neg (not_le_of_lt hlt)]
    · intro id trig hs
      simp only [handleTimerFire, hs]

/-! ### Concrete policy fixtures: apps `A`, `B`, `C` and folder `F`,
threshold `3/5`, dwell delay `800` ms -/

def witnessGetType : String → Option ItemType := fun id =>
  if id = "F" then some ItemType.folder
  else if id = "A" ∨ id = "B" ∨ id = "C" then some ItemType.app
  else none

def policyS0 : PolicyState := ⟨none, none⟩

def policyS1 : PolicyState := ⟨none, some ⟨"B", some 800, false⟩⟩

def moveInfoB : MoveInfo := ⟨"A", some ⟨"B", 1, 4 / 5⟩⟩

def moveInfoC : MoveInfo := ⟨"A", some ⟨"C", 2, 4 / 5⟩⟩

def moveInfoF : MoveInfo := ⟨"A", some ⟨"F", 3, 4 / 5⟩⟩

theorem policy_add_to_folder_immediate_witness :
    (moveInfoF.overlap = some ⟨"F", 3, 4 / 5⟩ ∧ ("F" : String) ≠ "A" ∧
      witnessGetType "A" = some ItemType.app ∧
      witnessGetType "F" = some ItemType.folder ∧ (3 / 5 : ℚ) ≤ 4 / 5) ∧
    handleDragMove witnessGetType (3 / 5) 800 policyS0 0 moveInfoF =
      { dropTarget := some ("F", DropAction.addToFolder), hover := none } :=
  ⟨⟨rfl, by decide, by decide, by decide, by norm_num⟩,
    (policy_add_to_folder_immediate witnessGetType (3 / 5) 800 policyS0 0 moveInfoF).1
      ⟨"F", 3, 4 / 5⟩ rfl (by decide) (by decide) (by decide) (by norm_num)⟩

theorem policy_create_folder_needs_full_dwell_witness :
    (policyS0.hover = none ∧ policyS1.hover = some ⟨"B", some 800, false⟩ ∧
      (3 / 5 : ℚ) ≤ 4 / 5 ∧ (800 : ℚ) ≤ 800) ∧
    (handleDragMove witnessGetType (3 / 5) 800 policyS0 0 moveInfoB =
      { dropTarget := none, hover := some ⟨"B", some ((0 : ℚ) + 800), false⟩ } ∧
    handleDragMove witnessGetType (3 / 5) 800 policyS1 500 moveInfoC =
      { dropTarget := none, hover := some ⟨"C", some ((500 : ℚ) + 800), false⟩ } ∧
    handleTimerFire policyS1 800 =
      { dropTarget := some ("B", DropAction.createFolder)
        hover := some ⟨"B", none, true⟩ }) :=
  ⟨⟨rfl, rfl, by norm_num, le_refl _⟩,
    (policy_create_folder_needs_full_dwell witnessGetType (3 / 5) 800).1 policyS0 0 moveInfoB
      ⟨"B", 1, 4 / 5⟩ rfl (by decide) (by decide) (by decide) (by norm_num)
      (by intro h hm; simp [policyS0] at hm),
    (policy_create_folder_needs_full_dwell witnessGetType (3 / 5) 800).1 policyS1 500 moveInfoC
      ⟨"C", 2, 4 / 5⟩ rfl (by decide) (by decide) (by decide) (by norm_num)
      (by
        intro h hm
        have hh : h = ⟨"B", some 800, false⟩ := by
          have := Option.mem_def.mp hm
          exact (Option.some_injective _ this).symm
        rw [hh]
        decide),
    (((policy_create_folder_needs_full_dwell witnessGetType (3 / 5) 800).2.2.2
        policyS1 800).2.1 "B" 800 false rfl).1 (le_refl _)⟩

/-! ## Engine cancellation paths (`src/lib/helper-dnd/DragEngine.ts`) -/

/-- A callback emission observable by the host (the `events` map). -/
inductive EngineEvent where
  | onDragCancel
  deriving Repr, DecidableEq

/-- The engine state touched by the two cancellation paths: whether a
`DragState` exists, the ghost element (by id) if the `GhostElement` owns
one, the cached items' inline transform styles, and the slot-detection
state. -/
structure EngineCancelState where
  dragActive : Bool
  ghost : Option ℕ
  styles : List (GridItem × Option TWrite)
  slot : SlotState
  deriving Repr, DecidableEq

/-- `GridTransforms.reset()`: every cached item's transition and transform
are cleared. -/
def stylesReset (styles : List (GridItem × Option TWrite)) :
    List (GridItem × Option TWrite) :=
  styles.map fun p => (p.1, some TWrite.cleared)

/-- `DragEngine.cancel(preserveGhost)`: no-op without a drag state;
otherwise destroy the ghost unless `preserveGhost`, reset transforms and
slot detection, clear the state — and emit nothing (the comment in the
source says the caller handles state cleanup). -/
def engineCancel (s : EngineCancelState) (preserveGhost : Bool) :
    EngineCancelState × List EngineEvent :=
  if s.dragActive = false then (s, [])
  else
    ({ dragActive := false
       ghost := if preserveGhost then s.ghost else none
       styles := stylesReset s.styles
       slot := SlotState.reset }, [])

/-- `DragEngine.handleDragCancel` (the PointerTracker `onDragCancel`
callback): no-op without a drag state; otherwise destroy the ghost, reset
transforms and slot detection, emit `onDragCancel`, clear the state. -/
def engineHandleDragCancel (s : EngineCancelState) :
    EngineCancelState × List EngineEvent :=
  if s.dragActive = false then (s, [])
  else
    ({ dragActive := false
       ghost := none
       styles := stylesReset s.styles
       slot := SlotState.reset }, [EngineEvent.onDragCancel])

/-- A concrete mid-drag engine state for the counterexample and witness. -/
def engineDraggingW : EngineCancelState :=
  { dragActive := true
    ghost := some 7
    styles := witnessItems.map fun it => (it, some (TWrite.shift 100 0))
    slot := witnessSlot }

/-- C3, counterexample: on a live drag, the externally invoked `cancel()`
emits no `onDragCancel` event at all (the claim asserts every cancellation
path emits it). -/
theorem engine_external_cancel_emits_nothing :
    engineDraggingW.dragActive = true ∧
    (engineCancel engineDraggingW false).2 = [] ∧
    EngineEvent.onDragCancel ∉ (engineCancel engineDraggingW false).2 := by
  refine ⟨rfl, rfl, ?_⟩
  intro h
  simp [engineCancel, engineDraggingW] at h

/-- C3, amended: on a live drag both cancellation paths perform the same
immediate synchronous cleanup (transforms reset, slot detection reset,
drag state cleared, no animation), but only the PointerTracker-driven
`handleDragCancel` destroys the ghost unconditionally and emits
`onDragCancel`; the externally invoked `cancel(preserveGhost)` keeps the
ghost exactly when asked to and emits no event, leaving state cleanup to
its caller. -/
theorem engine_cancel_paths_characterized (s : EngineCancelState)
    (h : s.dragActive = true) :
    engineHandleDragCancel s =
      ({ dragActive := false, ghost := none, styles := stylesReset s.styles
         slot := SlotState.reset }, [EngineEvent.onDragCancel]) ∧
    (∀ preserveGhost : Bool,
      engineCancel s preserveGhost =
        ({ dragActive := false
           ghost := if preserveGhost then s.ghost else none
           styles := stylesReset s.styles
           slot := SlotState.reset }, [])) := by
  constructor
  · unfold engineHandleDragCancel
    rw [if_neg (by simp [h])]
  · intro preserveGhost
    unfold engineCancel
    rw [if_neg (by simp [h])]

theorem engine_cancel_paths_characterized_witness :
    engineDraggingW.dragActive = true ∧
    (engineHandleDragCancel engineDraggingW =
      ({ dragActive := false, ghost := none
         styles := stylesReset engineDraggingW.styles
         slot := SlotState.reset }, [EngineEvent.onDragCancel]) ∧
    (∀ preserveGhost : Bool,
      engineCancel engineDraggingW preserveGhost =
        ({ dragActive := false
           ghost := if preserveGhost then engineDraggingW.ghost else none
           styles := stylesReset engineDraggingW.styles
           slot := SlotState.reset }, []))) :=
  ⟨rfl, engine_cancel_paths_characterized engineDraggingW rfl⟩

/-! ## Cross-grid handoff (`src/lib/helper-dnd/DragCoordinator.ts`) -/

/-- The environment a `handoff` run interacts with: the source engine's
drag state and detachable ghost, and whether each effectful step resolves
(`false` = it throws / rejects, landing in the `catch`), plus whether the
item element materializes in the target container. -/
structure HandoffEnv where
  state : Option Unit
  ghost : Option ℕ
  cancelOk : Bool
  onHandoffOk : Bool
  waitOk : Bool
  itemFound : Bool
  startDragOk : Bool
  deriving Repr, DecidableEq

/-- The coordinator's own mutable fields: registered grid ids,
`activeGridId` and the `isHandingOff` reentrancy flag. -/
structure CoordState where
  grids : List String
  activeGridId : Option String
  isHandingOff : Bool
  deriving Repr, DecidableEq

/-- What happened to the detached ghost element by the time `handoff`
returns. -/
inductive GhostFate where
  | untouched
  | removed
  | adopted
  deriving Repr, DecidableEq

/-- The observable outcome of one `handoff` run. -/
structure HandoffResult where
  ret : Bool
  coord : CoordState
  ghostFate : GhostFate
  threw : Bool
  deriving Repr, DecidableEq

/-- `DragCoordinator.handoff(toGridId, itemId, pointer)`: reentrancy and
registration guards, then the try block — read state, detach ghost,
cancel the source drag preserving the ghost, run the host `onHandoff`
callback, wait two frames, look the item up in the target container and
start the drag there; the catch removes the ghost and clears the flag
(leaving `activeGridId` as it was), while the not-found path removes the
ghost, clears the flag and nulls `activeGridId`. -/
def handoff (c : CoordState) (env : HandoffEnv) (toGridId : String) : HandoffResult :=
  if c.isHandingOff then ⟨false, c, GhostFate.untouched, false⟩
  else
    match c.activeGridId with
    | none => ⟨false, c, GhostFate.untouched, false⟩
    | some fromId =>
      if ¬ (c.grids.contains fromId ∧ c.grids.contains toGridId) then
        ⟨false, c, GhostFate.untouched, false⟩
      else
        match env.state with
        | none => ⟨false, { c with isHandingOff := false }, GhostFate.untouched, false⟩
        | some _ =>
          match env.ghost with
          | none => ⟨false, { c with isHandingOff := false }, GhostFate.untouched, false⟩
          | some _ =>
            if env.cancelOk = false then
              ⟨false, { c with isHandingOff := false }, GhostFate.removed, true⟩
            else if env.onHandoffOk = false then
              ⟨false, { c with isHandingOff := false }, GhostFate.removed, true⟩
            else if env.waitOk = false then
              ⟨false, { c with isHandingOff := false }, GhostFate.removed, true⟩
            else if env.itemFound = false then
              ⟨false, { c with isHandingOff := false, activeGridId := none },
                GhostFate.removed, false⟩
            else if env.startDragOk = false then
              ⟨false, { c with isHandingOff := false }, GhostFate.removed, true⟩
            else
              ⟨true, { c with isHandingOff := false, activeGridId := some toGridId },
                GhostFate.adopted, false⟩

/-- A coordinator mid-drag on the folder grid, with both grids
registered. -/
def coordW : CoordState :=
  { grids := ["main-grid", "folder-grid"], activeGridId := some "folder-grid"
    isHandingOff := false }

/-- An environment in which the host's `onHandoff` callback rejects. -/
def envHostThrows : HandoffEnv :=
  { state := some (), ghost := some 7, cancelOk := true, onHandoffOk := false
    waitOk := true, itemFound := true, startDragOk := true }

/-- An environment in which every step succeeds. -/
def envAllOk : HandoffEnv :=
  { state := some (), ghost := some 7, cancelOk := true, onHandoffOk := true
    waitOk := true, itemFound := true, startDragOk := true }

/-- C1, counterexample: when the host `onHandoff` callback throws, the
coordinator removes the ghost, clears the reentrancy flag and returns
`false`, but `activeGridId` is NOT reset to null — it still names the
source grid, contradicting the claim that every throwing execution ends
with `activeGridId` null. -/
theorem handoff_exception_keeps_activeGridId :
    (handoff coordW envHostThrows "main-grid").threw = true ∧
    (handoff coordW envHostThrows "main-grid").ret = false ∧
    (handoff coordW envHostThrows "main-grid").ghostFate = GhostFate.removed ∧
    (handoff coordW envHostThrows "main-grid").coord.isHandingOff = false ∧
    (handoff coordW envHostThrows "main-grid").coord.activeGridId = some "folder-grid" := by
  refine ⟨rfl, rfl, rfl, rfl, rfl⟩

/-- C1, amended: once the guards pass and the ghost is detached, a handoff
either fully succeeds — the located element is handed to the target
engine's `startDragAt` with the adopted ghost, `activeGridId` is set to
the target grid, the reentrancy flag is cleared and `true` is returned —
or it fails with the flag cleared, `false` returned and the detached ghost
removed from the DOM; but `activeGridId` is nulled only on the
target-element-not-found path, while on any exception it retains its
previous value. -/
theorem handoff_outcomes (c : CoordState) (env : HandoffEnv) (toGridId fromId : String)
    (hflag : c.isHandingOff = false) (hactive : c.activeGridId = some fromId)
    (hgrids : c.grids.contains fromId ∧ c.grids.contains toGridId)
    (hstate : env.state = some ()) (hghost : ∃ g, env.ghost = some g) :
    (env.cancelOk = true → env.onHandoffOk = true → env.waitOk = true →
      env.itemFound = true → env.startDragOk = true →
      handoff c env toGridId =
        ⟨true, { c with activeGridId := some toGridId, isHandingOff := false },
          GhostFate.adopted, false⟩) ∧
    ((handoff c env toGridId).threw = true →
      (handoff c env toGridId).ghostFate = GhostFate.removed ∧
      (handoff c env toGridId).ret = false ∧
      (handoff c env toGridId).coord.isHandingOff = false ∧
      (handoff c env toGridId).coord.activeGridId = c.activeGridId) ∧
    (env.cancelOk = true → env.onHandoffOk = true → env.waitOk = true →
      env.itemFound = false →
      handoff c env toGridId =
        ⟨false, { c with activeGridId := none, isHandingOff := false },
          GhostFate.removed, false⟩) := by
  obtain ⟨g, hg⟩ := hghost
  have hm1 : fromId ∈ c.grids := by simpa using hgrids.1
  have hm2 : toGridId ∈ c.grids := by simpa using hgrids.2
  refine ⟨?_, ?_, ?_⟩
  · intro h1 h2 h3 h4 h5
    simp [handoff, hflag, hactive, hstate, hg, hm1, hm2, h1, h2, h3, h4, h5]
  · intro hthrew
    cases hc : env.cancelOk <;> cases ho : env.onHandoffOk <;> cases hw : env.waitOk <;>
      cases hi : env.itemFound <;> cases hs : env.startDragOk <;>
      simp [handoff, hflag, hactive, hstate, hg, hm1, hm2, hc, ho, hw, hi, hs] at hthrew ⊢
  · intro h1 h2 h3 h4
    simp [handoff, hflag, hactive, hstate, hg, hm1, hm2, h1, h2, h3, h4]

theorem handoff_outcomes_witness :
    (coordW.isHandingOff = false ∧ coordW.activeGridId = some "folder-grid" ∧
      (coordW.grids.contains "folder-grid" ∧ coordW.grids.contains "main-grid") ∧
      envAllOk.state = some () ∧ (∃ g, envAllOk.ghost = some g) ∧
      envAllOk.itemFound = true) ∧
    handoff coordW envAllOk "main-grid" =
      ⟨true, { coordW with activeGridId := some "main-grid", isHandingOff := false },
        GhostFate.adopted, false⟩ :=
  ⟨⟨rfl, rfl, ⟨by decide, by decide⟩, rfl, ⟨7, rfl⟩, rfl⟩,
    (handoff_outcomes coordW envAllOk "main-grid" "folder-grid" rfl rfl
      ⟨by decide, by decide⟩ rfl ⟨7, rfl⟩).1 rfl rfl rfl rfl rfl⟩

end AppWaffle
